import Mathlib

/-!
Verification development for the encryption subsystem of the secure-chat-anywhere
repository (a React/TypeScript end-to-end-encrypted chat application).

The embedding covers:
* the crypto primitive layer `src/unnamed/part_002` (`generateKeyPair`,
  `generateSymmetricKey`, `exportKey`, `importKey`, `importSymmetricKey`,
  `encryptWithPublicKey`, `decryptWithPrivateKey`, `encryptWithSymmetricKey`,
  `decryptWithSymmetricKey`, `arrayBufferToBase64`, `base64ToArrayBuffer`);
* the Channel Key Manager / Content Cipher `src/src/contexts/EncryptionContext.tsx`
  (`getChannelKey`, `generateChannelKey`, `hasChannelKey`, `shareChannelKey`,
  `importSharedChannelKey`, `encryptMessage`, `decryptMessage`);
* the message-store operations of `src/src/contexts/StorageContext.tsx`
  (the decryption mapping of `fetchMessages`, `addReaction`, `removeReaction`).

JavaScript strings and ArrayBuffers are embedded as one symbolic datatype `Val`
whose constructors record how a value was produced (plain text, JSON
serialization, base64 rendering, UTF-8 encoding, cipher output).  The Web
Crypto API (`window.crypto.subtle`) and the platform codecs (`btoa`/`atob`,
`TextEncoder`/`TextDecoder`, `JSON.stringify`/`JSON.parse`) are not part of the
repository; they are modelled from the spec (sections 4.1 and 6) as ideal,
injective operations with the contracts the spec states: fresh random nonces,
decryption failing on any key or nonce mismatch, lossless export/import, and
the RSA-OAEP payload-size limit.  Randomness (`crypto.getRandomValues` and key
generation) is modelled by an explicit entropy stream threaded through the
operations.
-/

namespace SecureChat

/-- JSON Web Key, the portable key export format of `exportKey` (`part_002`):
an AES-256-GCM key carrying its raw material, or an RSA-OAEP public/private
half identified by its modulus. -/
inductive Jwk where
  | sym (k : Nat)
  | rsaPub (n : Nat)
  | rsaPriv (n : Nat)
deriving DecidableEq, Repr

/-- An in-memory `CryptoKey` handle as produced by the Web Crypto import and
generate operations, with its algorithm/usage binding. -/
inductive CKey where
  | sym (k : Nat)
  | rsaPub (n : Nat)
  | rsaPriv (n : Nat)
deriving DecidableEq, Repr

/-- A reaction on a message (`src/unnamed/part_000`, interface `Reaction`). -/
structure Reaction where
  emoji : String
  userId : String
  userName : String
deriving DecidableEq, Repr

/-- Symbolic model of the JavaScript string/ArrayBuffer values that flow
through the encryption subsystem.  Modelled from the spec: serialization
(`JSON.stringify`), base64 (`btoa`), UTF-8 encoding and the two ciphers are
injective constructors, and the corresponding decoders are their partial
inverses; an AES-GCM ciphertext records the key and nonce it was produced
under, an RSA-OAEP ciphertext records the public key it was wrapped under. -/
inductive Val where
  | text (s : String)
  | ofJwk (j : Jwk)
  | ofKeyRecordJson (id ownerUserId : String) (encryptedKey : Val)
      (keyType associatedId : String) (createdAt : Nat)
  | ofMessageJson (id : String) (content : Val) (iv : Option Val)
      (senderId : String) (reactions : List Reaction)
  | b64 (buffer : Val)
  | utf8 (str : Val)
  | bytes (bs : List Nat)
  | aesCt (key : Nat) (iv : List Nat) (payload : Val)
  | rsaCt (pubModulus : Nat) (payload : Val)

/-- Modelled from the spec: the byte length of a value's serialized form, used
only for the RSA-OAEP maximum-payload check (a 2048-bit RSA-OAEP/SHA-256 key
encrypts at most 190 bytes).  The constants are representative serialized
sizes: an AES-256 JWK string is about 105 bytes, RSA JWKs and ciphertexts are
larger than the limit. -/
def Val.byteLen : Val → Nat
  | .text s => s.length
  | .ofJwk (.sym _) => 105
  | .ofJwk (.rsaPub _) => 400
  | .ofJwk (.rsaPriv _) => 1700
  | .ofKeyRecordJson id owner ek kt assoc _ =>
      id.length + owner.length + ek.byteLen + kt.length + assoc.length + 120
  | .ofMessageJson _ c _ _ _ => c.byteLen + 200
  | .b64 b => 4 * ((b.byteLen + 2) / 3)
  | .utf8 v => v.byteLen
  | .bytes bs => bs.length
  | .aesCt _ _ p => p.byteLen + 16
  | .rsaCt _ _ => 256

/-- Entropy source: a stream of `getRandomValues` draws and a stream of raw
generated key material, with a cursor.  Models the platform randomness that
`part_002` consumes. -/
structure Entropy where
  ivSeed : Nat → List Nat
  keySeed : Nat → Nat
  idx : Nat

/-- Advance the entropy cursor after one draw. -/
def Entropy.next (e : Entropy) : Entropy :=
  { e with idx := e.idx + 1 }

/-- Modelled from the spec: `window.crypto.getRandomValues(new Uint8Array(12))`
(`part_002` line 118) fills a fresh 12-byte (96-bit) array from platform
randomness.  The draw is normalized to exactly 12 bytes, each below 256. -/
def getRandomValues12 (e : Entropy) : List Nat × Entropy :=
  ((((e.ivSeed e.idx).map (· % 256)) ++ List.replicate 12 0).take 12, e.next)

/-- `generateKeyPair` (`part_002` lines 7-18): a fresh RSA-OAEP 2048-bit
keypair; modelled as matched public/private halves over fresh key material. -/
def generateKeyPair (e : Entropy) : (CKey × CKey) × Entropy :=
  ((.rsaPub (e.keySeed e.idx), .rsaPriv (e.keySeed e.idx)), e.next)

/-- `generateSymmetricKey` (`part_002` lines 21-30): a fresh AES-GCM 256-bit
key; the raw material is reduced modulo `2 ^ 256` to model the 256-bit width. -/
def generateSymmetricKey (e : Entropy) : CKey × Entropy :=
  (.sym (e.keySeed e.idx % 2 ^ 256), e.next)

/-- `exportKey` (`part_002` lines 33-35): lossless export of a key handle to
its JWK form. -/
def exportKey : CKey → Jwk
  | .sym k => .sym k
  | .rsaPub n => .rsaPub n
  | .rsaPriv n => .rsaPriv n

/-- `importKey` (`part_002` lines 38-52): imports an RSA-OAEP JWK, binding
decrypt-only usage when `isPrivate` and encrypt-only usage otherwise; fails on
a JWK that does not match the requested shape. -/
def importKey (jwk : Jwk) (isPrivate : Bool) : Option CKey :=
  match jwk, isPrivate with
  | .rsaPriv n, true => some (.rsaPriv n)
  | .rsaPub n, false => some (.rsaPub n)
  | _, _ => none

/-- `importSymmetricKey` (`part_002` lines 55-66): imports an AES-GCM JWK;
fails on any other key shape. -/
def importSymmetricKey (jwk : Jwk) : Option CKey :=
  match jwk with
  | .sym k => some (.sym k)
  | _ => none

/-- `arrayBufferToBase64` (`part_002` lines 167-174); modelled from the spec
as an injective rendering of a buffer into a string. -/
def arrayBufferToBase64 (buffer : Val) : Val := .b64 buffer

/-- `base64ToArrayBuffer` (`part_002` lines 177-184); partial inverse of
`arrayBufferToBase64` (`atob` rejects strings that are not base64). -/
def base64ToArrayBuffer : Val → Option Val
  | .b64 b => some b
  | _ => none

/-- `new TextEncoder().encode` ; modelled from the spec as a lossless encoding
of a string into a buffer. -/
def textEncode (s : Val) : Val := .utf8 s

/-- `new TextDecoder().decode` ; partial inverse of `textEncode`. -/
def textDecode : Val → Option Val
  | .utf8 s => some s
  | _ => none

/-- Modelled from the spec (4.1 `aeadEncrypt`): `crypto.subtle.encrypt`
with AES-GCM produces a ciphertext bound to the key and nonce used. -/
def aesGcmEncrypt (key : Nat) (iv : List Nat) (data : Val) : Val :=
  .aesCt key iv data

/-- Modelled from the spec (4.1 `aeadDecrypt`): AES-GCM decryption succeeds
exactly on a ciphertext produced under the same key and the same nonce, and
fails (authentication mismatch) otherwise. -/
def aesGcmDecrypt (key : Nat) (iv : List Nat) : Val → Option Val
  | .aesCt k i payload => if k = key ∧ i = iv then some payload else none
  | _ => none

/-- Maximum RSA-OAEP payload for a 2048-bit key with SHA-256 (spec 4.1:
`wrapWithPublicKey` fails with `EncryptionFailed` beyond the scheme's
maximum payload size). -/
def rsaOaepMaxPayload : Nat := 190

/-- Modelled from the spec (4.1 `wrapWithPublicKey`): RSA-OAEP encryption of a
short buffer under a public key; fails when the payload exceeds the scheme's
maximum size. -/
def rsaOaepEncrypt (modulus : Nat) (data : Val) : Option Val :=
  if data.byteLen ≤ rsaOaepMaxPayload then some (.rsaCt modulus data) else none

/-- Modelled from the spec (4.1 `unwrapWithPrivateKey`): RSA-OAEP decryption
succeeds exactly on a blob wrapped under the matching public key. -/
def rsaOaepDecrypt (modulus : Nat) : Val → Option Val
  | .rsaCt n payload => if n = modulus then some payload else none
  | _ => none

/-- `encryptWithPublicKey` (`part_002` lines 69-88): UTF-8 encode the string,
RSA-OAEP encrypt it under the public key, render the result as base64.  Fails
when given a key without encrypt usage. -/
def encryptWithPublicKey (data : Val) (publicKey : CKey) : Option Val :=
  match publicKey with
  | .rsaPub n => (rsaOaepEncrypt n (textEncode data)).map arrayBufferToBase64
  | _ => none

/-- `decryptWithPrivateKey` (`part_002` lines 91-110): decode the base64 blob,
RSA-OAEP decrypt it with the private key, decode the plaintext buffer back to
a string. -/
def decryptWithPrivateKey (encryptedData : Val) (privateKey : CKey) : Option Val :=
  match privateKey with
  | .rsaPriv n => do
      let encryptedBuffer ← base64ToArrayBuffer encryptedData
      let decryptedBuffer ← rsaOaepDecrypt n encryptedBuffer
      textDecode decryptedBuffer
  | _ => none

/-- `encryptWithSymmetricKey` (`part_002` lines 113-139): draw a fresh random
12-byte IV from platform randomness, UTF-8 encode the data, AES-GCM encrypt,
and return the base64 ciphertext together with the base64 IV.  The function
takes no caller-supplied nonce; the nonce comes only from the entropy
stream. -/
def encryptWithSymmetricKey (data : Val) (symmetricKey : CKey) (e : Entropy) :
    Option (Val × Val) × Entropy :=
  let (iv, e1) := getRandomValues12 e
  match symmetricKey with
  | .sym k =>
      (some (arrayBufferToBase64 (aesGcmEncrypt k iv (textEncode data)),
             arrayBufferToBase64 (.bytes iv)), e1)
  | _ => (none, e1)

/-- `decryptWithSymmetricKey` (`part_002` lines 142-164): decode the base64
ciphertext and IV, AES-GCM decrypt with the key, decode the plaintext buffer
back to a string. -/
def decryptWithSymmetricKey (encryptedData iv : Val) (symmetricKey : CKey) :
    Option Val :=
  match symmetricKey with
  | .sym k => do
      let encryptedBuffer ← base64ToArrayBuffer encryptedData
      let ivBuffer ← base64ToArrayBuffer iv
      match ivBuffer with
      | .bytes ivbs => do
          let decryptedBuffer ← aesGcmDecrypt k ivbs encryptedBuffer
          textDecode decryptedBuffer
      | _ => none
  | _ => none

/-- The persisted Key Record (`src/unnamed/part_000`, interface
`EncryptionKeyReference`): the per-recipient wrapped copy of a channel key.
`new Date()` timestamps are modelled as a `Nat`. -/
structure EncryptionKeyReference where
  id : String
  ownerUserId : String
  encryptedKey : Val
  keyType : String
  associatedId : String
  createdAt : Nat

/-- `JSON.stringify` of a key record, as persisted by the Channel Key
Manager. -/
def stringifyKeyRecord (r : EncryptionKeyReference) : Val :=
  .ofKeyRecordJson r.id r.ownerUserId r.encryptedKey r.keyType r.associatedId
    r.createdAt

/-- `JSON.parse` of stored data as a key record; partial inverse of
`stringifyKeyRecord`. -/
def parseKeyRecord : Val → Option EncryptionKeyReference
  | .ofKeyRecordJson id owner ek kt assoc t => some ⟨id, owner, ek, kt, assoc, t⟩
  | _ => none

/-- `JSON.parse` of a string holding a JWK. -/
def parseJwk : Val → Option Jwk
  | .ofJwk j => some j
  | _ => none

/-- One persisted object of the blob store: collection path, file key, and the
stored string. -/
structure StoreEntry where
  path : String
  key : String
  data : Val

/-- The abstract blob store (spec section 6), shared between users: a log of
`put` operations, newest first. -/
abbrev Store := List StoreEntry

/-- `storeData(key, data, path)` (`StorageContext.tsx` lines 89-100), with the
adapter initialized. -/
def storePut (st : Store) (key : String) (data : Val) (path : String) : Store :=
  ⟨path, key, data⟩ :: st

/-- `retrieveData(key, path)` (`StorageContext.tsx` lines 102-113): the most
recently stored value under the key, if any. -/
def storeGet (st : Store) (key path : String) : Option Val :=
  (st.find? fun e => e.path == path && e.key == key).map (·.data)

/-- `StoragePaths.ENCRYPTION` (`src/unnamed/part_004`). -/
def StoragePathsENCRYPTION : String := "encryption"

/-- `StoragePaths.MESSAGES` (`src/unnamed/part_004`). -/
def StoragePathsMESSAGES : String := "messages"

/-- The authenticated user as the `EncryptionContext` sees it via `useAuth`:
id and name from `authState.user`, the published public key string
(`authState.user.publicKey`), and the local private-key JWK that
`getPrivateKey` resolves (`AuthContext`, with the localStorage fallback
collapsed into one optional field). -/
structure UserCtx where
  id : String
  name : String
  publicKey : Option Val
  privateKeyJwk : Option Jwk

/-- `getPrivateKey()` of `AuthContext`: `undefined` when no user is signed in,
otherwise the locally held private-key JWK if present. -/
def getPrivateKey : Option UserCtx → Option Jwk
  | none => none
  | some u => u.privateKeyJwk

/-- Process-local state of the encryption subsystem: the shared blob store,
this process's `channelKeysCache` (`EncryptionContext.tsx` line 41), and the
platform entropy stream. -/
structure EncState where
  store : Store
  cache : List (String × CKey)
  ent : Entropy

/-- Lookup in `channelKeysCache`. -/
def cacheGet (c : List (String × CKey)) (channelId : String) : Option CKey :=
  (c.find? fun p => p.1 == channelId).map (·.2)

/-- Assignment `channelKeysCache[channelId] = key`. -/
def cachePut (c : List (String × CKey)) (channelId : String) (key : CKey) :
    List (String × CKey) :=
  (channelId, key) :: c

/-- The expression `authState.user?.id` as it appears in `getChannelKey`
(`EncryptionContext.tsx` line 67): the user id, or the string rendering of
`undefined` when no user is present. -/
def authUserId : Option UserCtx → String
  | some u => u.id
  | none => "undefined"

/-- The body of `getChannelKey` (`EncryptionContext.tsx` lines 48-90) before
its `catch`: cache-first lookup, then load the private key, retrieve the
current identity's key record from `encryption/<channelId>`, unwrap it and
populate the cache.  Thrown errors are modelled by their message strings
(`'Private key not available'` is thrown verbatim; the platform and storage
failures carry representative messages). -/
def getChannelKeyE (channelId : String) (auth : Option UserCtx) (s : EncState) :
    Except String (CKey × EncState) :=
  match cacheGet s.cache channelId with
  | some key => .ok (key, s)
  | none =>
    match getPrivateKey auth with
    | none => .error "Private key not available"
    | some privateKeyJwk =>
      match importKey privateKeyJwk true with
      | none => .error "DataError"
      | some privateKey =>
        match storeGet s.store ("key-" ++ authUserId auth ++ ".json")
            (StoragePathsENCRYPTION ++ "/" ++ channelId) with
        | none => .error ("File not found: key-" ++ authUserId auth ++ ".json")
        | some encryptedKeyReferenceData =>
          match parseKeyRecord encryptedKeyReferenceData with
          | none => .error "SyntaxError"
          | some encryptedKeyReference =>
            match decryptWithPrivateKey encryptedKeyReference.encryptedKey
                privateKey with
            | none => .error "OperationError"
            | some decryptedKeyJwk =>
              match parseJwk decryptedKeyJwk with
              | none => .error "SyntaxError"
              | some symJwk =>
                match importSymmetricKey symJwk with
                | none => .error "DataError"
                | some symmetricKey =>
                  .ok (symmetricKey,
                    { s with cache := cachePut s.cache channelId symmetricKey })

/-- `getChannelKey` as its callers see it: the `catch` block logs any error
and returns `null`, leaving the state unchanged. -/
def getChannelKey (channelId : String) (auth : Option UserCtx) (s : EncState) :
    Option CKey × EncState :=
  match getChannelKeyE channelId auth s with
  | .ok (key, s1) => (some key, s1)
  | .error _ => (none, s)

/-- `generateChannelKey` (`EncryptionContext.tsx` lines 93-151): generate a
fresh channel key, wrap it under the caller's own public key into a key
record, persist it under `encryption/<channelId>` as `key-<userId>.json`,
populate the cache; any failure is caught and reported as `false`. -/
def generateChannelKey (channelId : String) (auth : Option UserCtx)
    (s : EncState) : Bool × EncState :=
  match auth with
  | none => (false, s)
  | some user =>
    let (symmetricKey, e1) := generateSymmetricKey s.ent
    let symmetricKeyJwk := exportKey symmetricKey
    match getPrivateKey auth with
    | none => (false, { s with ent := e1 })
    | some _ =>
      match user.publicKey with
      | none => (false, { s with ent := e1 })
      | some publicKeyData =>
        match parseJwk publicKeyData with
        | none => (false, { s with ent := e1 })
        | some publicKeyJwk =>
          match importKey publicKeyJwk false with
          | none => (false, { s with ent := e1 })
          | some publicKey =>
            match encryptWithPublicKey (.ofJwk symmetricKeyJwk) publicKey with
            | none => (false, { s with ent := e1 })
            | some encryptedKey =>
              let keyReference : EncryptionKeyReference :=
                { id := "key-" ++ channelId ++ "-" ++ user.id
                  ownerUserId := user.id
                  encryptedKey := encryptedKey
                  keyType := "channel"
                  associatedId := channelId
                  createdAt := 0 }
              (true,
                { store := storePut s.store ("key-" ++ user.id ++ ".json")
                    (stringifyKeyRecord keyReference)
                    (StoragePathsENCRYPTION ++ "/" ++ channelId)
                  cache := cachePut s.cache channelId symmetricKey
                  ent := e1 })

/-- `hasChannelKey` (`EncryptionContext.tsx` lines 154-167): cache check, then
`!!(await getChannelKey(channelId))`; its `catch` maps any failure to
`false`. -/
def hasChannelKey (channelId : String) (auth : Option UserCtx) (s : EncState) :
    Bool × EncState :=
  match cacheGet s.cache channelId with
  | some _ => (true, s)
  | none =>
    match getChannelKey channelId auth s with
    | (key, s1) => (key.isSome, s1)

/-- `shareChannelKey` (`EncryptionContext.tsx` lines 170-202): resolve the
caller's channel key, export it, wrap it under the recipient's public key and
return the blob; errors are logged and rethrown. -/
def shareChannelKey (channelId : String) (recipientPublicKeyJwk : Jwk)
    (auth : Option UserCtx) (s : EncState) : Except String (Val × EncState) :=
  match auth with
  | none => .error "User not authenticated"
  | some _ =>
    match getChannelKey channelId auth s with
    | (none, _) => .error "Channel key not available"
    | (some channelKey, s1) =>
      let symmetricKeyJwk := exportKey channelKey
      match importKey recipientPublicKeyJwk false with
      | none => .error "DataError"
      | some recipientPublicKey =>
        match encryptWithPublicKey (.ofJwk symmetricKeyJwk)
            recipientPublicKey with
        | none => .error "OperationError"
        | some encryptedKey => .ok (encryptedKey, s1)

/-- `importSharedChannelKey` (`EncryptionContext.tsx` lines 205-252): unwrap
the incoming blob with the local private key, persist a key record for self
(storing the incoming blob verbatim as `encryptedKey`), then import the key
into the cache; any failure is caught and reported as `false`.  Note the
record is persisted before the symmetric import, exactly as in the source. -/
def importSharedChannelKey (encryptedKey : Val) (channelId : String)
    (auth : Option UserCtx) (s : EncState) : Bool × EncState :=
  match auth with
  | none => (false, s)
  | some user =>
    match getPrivateKey auth with
    | none => (false, s)
    | some privateKeyJwk =>
      match importKey privateKeyJwk true with
      | none => (false, s)
      | some privateKey =>
        match decryptWithPrivateKey encryptedKey privateKey with
        | none => (false, s)
        | some decryptedKeyJwk =>
          let keyReference : EncryptionKeyReference :=
            { id := "key-" ++ channelId ++ "-" ++ user.id
              ownerUserId := user.id
              encryptedKey := encryptedKey
              keyType := "channel"
              associatedId := channelId
              createdAt := 0 }
          let store1 := storePut s.store ("key-" ++ user.id ++ ".json")
            (stringifyKeyRecord keyReference)
            (StoragePathsENCRYPTION ++ "/" ++ channelId)
          match parseJwk decryptedKeyJwk with
          | none => (false, { s with store := store1 })
          | some symJwk =>
            match importSymmetricKey symJwk with
            | none => (false, { s with store := store1 })
            | some symmetricKey =>
              (true,
                { s with
                  store := store1
                  cache := cachePut s.cache channelId symmetricKey })

/-- `encryptMessage` (`EncryptionContext.tsx` lines 255-272): resolve the
channel key and symmetric-encrypt the message; a missing key raises
`'Channel key not available'`, which the `catch` rethrows unchanged. -/
def encryptMessage (message : Val) (channelId : String) (auth : Option UserCtx)
    (s : EncState) : Except String ((Val × Val) × EncState) :=
  match getChannelKey channelId auth s with
  | (none, _) => .error "Channel key not available"
  | (some channelKey, s1) =>
    match encryptWithSymmetricKey message channelKey s1.ent with
    | (some ctiv, e1) => .ok (ctiv, { s1 with ent := e1 })
    | (none, _) => .error "InvalidAccessError"

/-- `decryptMessage` (`EncryptionContext.tsx` lines 275-293): resolve the
channel key and symmetric-decrypt; a missing key raises
`'Channel key not available'` and a cipher failure rethrows the platform
`OperationError`, both propagated unchanged by the `catch`. -/
def decryptMessage (ciphertext iv : Val) (channelId : String)
    (auth : Option UserCtx) (s : EncState) : Except String (Val × EncState) :=
  match getChannelKey channelId auth s with
  | (none, _) => .error "Channel key not available"
  | (some channelKey, s1) =>
    match decryptWithSymmetricKey ciphertext iv channelKey with
    | some plain => .ok (plain, s1)
    | none => .error "OperationError"

/-- A message record (`src/unnamed/part_000`, interface `Message`), restricted
to the fields the encryption subsystem reads or writes: `content` (ciphertext
when `iv` is present), the optional AES-GCM `iv`, and the reactions that
`addReaction`/`removeReaction` edit.  The remaining metadata fields play no
role in the claims. -/
structure MessageRec where
  id : String
  content : Val
  iv : Option Val
  senderId : String
  reactions : List Reaction

/-- `JSON.stringify` of a message record, as persisted under
`messages/<channelId>/<messageId>.json`. -/
def stringifyMessage (m : MessageRec) : Val :=
  .ofMessageJson m.id m.content m.iv m.senderId m.reactions

/-- The per-message decryption step of `fetchMessages`
(`StorageContext.tsx` lines 451-470): a message with an `iv` is decrypted and
its `content` replaced by the plaintext; a decryption failure replaces the
content with the fixed placeholder; a message without an `iv` is returned
unchanged. -/
def decryptFetchedMessage (channelId : String) (auth : Option UserCtx)
    (s : EncState) (message : MessageRec) : MessageRec × EncState :=
  match message.iv with
  | some iv =>
    match decryptMessage message.content iv channelId auth s with
    | .ok (decryptedContent, s1) => ({ message with content := decryptedContent }, s1)
    | .error _ => ({ message with content := .text "[ENCRYPTED - Cannot decrypt]" }, s)
  | none => (message, s)

/-- The decryption mapping of `fetchMessages` over a retrieved batch
(`StorageContext.tsx` lines 452-470), with the per-message promises sequenced
through the state. -/
def decryptFetchedMessages (channelId : String) (auth : Option UserCtx) :
    List MessageRec → EncState → List MessageRec × EncState
  | [], s => ([], s)
  | m :: ms, s =>
    let (m1, s1) := decryptFetchedMessage channelId auth s m
    let (ms1, s2) := decryptFetchedMessages channelId auth ms s1
    (m1 :: ms1, s2)

/-- The local-state update `updatedMessages[messageIndex] = updatedMessage`. -/
def replaceMessage (messages : List MessageRec) (updated : MessageRec) :
    List MessageRec :=
  messages.map fun m => if m.id == updated.id then updated else m

/-- `addReaction` (`StorageContext.tsx` lines 586-653): find the message in
local state, skip if the user already reacted with this emoji, append the
reaction; when the message has an `iv`, re-encrypt its (locally decrypted)
content with `encryptMessage` and store the record with the new ciphertext
but the original `iv` field (the fresh IV returned by `encryptMessage` is
discarded by the `{ ciphertext }` destructuring).  Returns the reported
success flag, the updated local message list, and the new state. -/
def addReaction (messageId emoji : String) (auth : Option UserCtx)
    (currentChannelId : Option String) (messages : List MessageRec)
    (s : EncState) : Bool × List MessageRec × EncState :=
  match auth, currentChannelId with
  | some user, some channelId =>
    match messages.find? (fun m => m.id == messageId) with
    | none => (false, messages, s)
    | some message =>
      match message.reactions.find?
          (fun r => r.userId == user.id && r.emoji == emoji) with
      | some _ => (true, messages, s)
      | none =>
        let updatedMessage :=
          { message with reactions := message.reactions ++ [⟨emoji, user.id, user.name⟩] }
        match message.iv with
        | some _ =>
          match encryptMessage message.content channelId auth s with
          | .error _ => (false, messages, s)
          | .ok ((ciphertext, _), s1) =>
            let encryptedMessage := { updatedMessage with content := ciphertext }
            let store1 := storePut s1.store (messageId ++ ".json")
              (stringifyMessage encryptedMessage)
              (StoragePathsMESSAGES ++ "/" ++ channelId)
            (true, replaceMessage messages updatedMessage, { s1 with store := store1 })
        | none =>
          let store1 := storePut s.store (messageId ++ ".json")
            (stringifyMessage updatedMessage)
            (StoragePathsMESSAGES ++ "/" ++ channelId)
          (true, replaceMessage messages updatedMessage, { s with store := store1 })
  | _, _ => (false, messages, s)

/-- `removeReaction` (`StorageContext.tsx` lines 656-707): like `addReaction`
but filtering the user's reaction out; the same re-encryption under a fresh
IV with the original `iv` field preserved. -/
def removeReaction (messageId emoji : String) (auth : Option UserCtx)
    (currentChannelId : Option String) (messages : List MessageRec)
    (s : EncState) : Bool × List MessageRec × EncState :=
  match auth, currentChannelId with
  | some user, some channelId =>
    match messages.find? (fun m => m.id == messageId) with
    | none => (false, messages, s)
    | some message =>
      let keptReactions := message.reactions.filter
        (fun r => !(r.userId == user.id && r.emoji == emoji))
      let updatedMessage := { message with reactions := keptReactions }
      match message.iv with
      | some _ =>
        match encryptMessage message.content channelId auth s with
        | .error _ => (false, messages, s)
        | .ok ((ciphertext, _), s1) =>
          let encryptedMessage := { updatedMessage with content := ciphertext }
          let store1 := storePut s1.store (messageId ++ ".json")
            (stringifyMessage encryptedMessage)
            (StoragePathsMESSAGES ++ "/" ++ channelId)
          (true, replaceMessage messages updatedMessage, { s1 with store := store1 })
      | none =>
        let store1 := storePut s.store (messageId ++ ".json")
          (stringifyMessage updatedMessage)
          (StoragePathsMESSAGES ++ "/" ++ channelId)
        (true, replaceMessage messages updatedMessage, { s with store := store1 })
  | _, _ => (false, messages, s)

/-- One Channel Key Manager operation, for reasoning about arbitrary
interleavings of the four operations (claim C1). -/
inductive KMOp where
  | genKey (auth : Option UserCtx) (channelId : String)
  | getKey (auth : Option UserCtx) (channelId : String)
  | shareKey (auth : Option UserCtx) (channelId : String)
      (recipientPublicKeyJwk : Jwk)
  | importKeyOp (auth : Option UserCtx) (encryptedKey : Val) (channelId : String)

/-- Run one Channel Key Manager operation for its state effect. -/
def runKMOp (s : EncState) : KMOp → EncState
  | .genKey auth ch => (generateChannelKey ch auth s).2
  | .getKey auth ch => (getChannelKey ch auth s).2
  | .shareKey auth ch r =>
    match shareChannelKey ch r auth s with
    | .ok (_, s1) => s1
    | .error _ => s
  | .importKeyOp auth blob ch => (importSharedChannelKey blob ch auth s).2

/-- Run a sequence of Channel Key Manager operations. -/
def runKMOps (ops : List KMOp) (s : EncState) : EncState :=
  ops.foldl runKMOp s

/-- A stored value is a key record whose `encryptedKey` field is the base64
rendering of an RSA-OAEP ciphertext, i.e. a key wrapped under some recipient
public key. -/
def wrappedKeyRecordB : Val → Bool
  | .ofKeyRecordJson _ _ (.b64 (.rsaCt _ _)) _ _ _ => true
  | _ => false

/-- Store invariant for claim C1: every entry persisted under an
`encryption/...` collection is a wrapped key record. -/
def storeWrappedB (st : Store) : Bool :=
  st.all fun e => !(e.path.startsWith (StoragePathsENCRYPTION ++ "/")) ||
    wrappedKeyRecordB e.data

/-- Does a value contain the symmetric key `k` in cleartext, i.e. an AES JWK
for `k` anywhere outside an RSA-OAEP wrap?  (RSA ciphertexts hide their
payload from anyone without the private key.) -/
def exposesSymKey (k : Nat) : Val → Bool
  | .text _ => false
  | .ofJwk j => match j with | .sym k2 => k2 == k | _ => false
  | .ofKeyRecordJson _ _ ek _ _ _ => exposesSymKey k ek
  | .ofMessageJson _ c (some v) _ _ => exposesSymKey k c || exposesSymKey k v
  | .ofMessageJson _ c none _ _ => exposesSymKey k c
  | .b64 b => exposesSymKey k b
  | .utf8 v => exposesSymKey k v
  | .bytes _ => false
  | .aesCt _ _ p => exposesSymKey k p
  | .rsaCt _ _ => false

/-! ## Helper lemmas about the primitive layer -/

/-- The IV drawn by `getRandomValues12` is exactly 12 bytes. -/
theorem getRandomValues12_length (e : Entropy) :
    (getRandomValues12 e).1.length = 12 := by
  simp [getRandomValues12]

/-- Every entry of a `getRandomValues12` draw is a byte. -/
theorem getRandomValues12_lt (e : Entropy) :
    ∀ b ∈ (getRandomValues12 e).1, b < 256 := by
  intro b hb
  have hb2 := List.mem_of_mem_take hb
  rcases List.mem_append.1 hb2 with h | h
  · rcases List.mem_map.1 h with ⟨a, _, rfl⟩
    exact Nat.mod_lt _ (by norm_num)
  · simp_all [List.eq_of_mem_replicate h]

/-- Computation law for `encryptWithSymmetricKey` on an AES key: the
ciphertext is the AES-GCM encryption of the UTF-8 encoded data under the IV
drawn from the entropy stream, and both outputs are base64-rendered. -/
theorem encryptWithSymmetricKey_eq (data : Val) (k : Nat) (e : Entropy) :
    encryptWithSymmetricKey data (CKey.sym k) e =
      (some (.b64 (.aesCt k (getRandomValues12 e).1 (.utf8 data)),
             .b64 (.bytes (getRandomValues12 e).1)), e.next) := by
  simp [encryptWithSymmetricKey, getRandomValues12, arrayBufferToBase64,
    aesGcmEncrypt, textEncode]

/-! ## Claims about the primitive layer (C2, C3, C4) -/

/-- C2: for every plaintext `m` and symmetric key `k`, decrypting the
ciphertext/IV pair produced by `encryptWithSymmetricKey (m, k)` with the same
key returns `m`. -/
theorem symmetric_encrypt_decrypt_roundtrip (m : Val) (k : Nat) (e : Entropy)
    (ct iv : Val)
    (h : (encryptWithSymmetricKey m (CKey.sym k) e).1 = some (ct, iv)) :
    decryptWithSymmetricKey ct iv (CKey.sym k) = some m := by
  rw [encryptWithSymmetricKey_eq] at h
  simp only [Option.some.injEq, Prod.mk.injEq] at h
  obtain ⟨rfl, rfl⟩ := h
  simp [decryptWithSymmetricKey, base64ToArrayBuffer, aesGcmDecrypt, textDecode]

/-- C2 witness: a concrete round trip. -/
theorem symmetric_encrypt_decrypt_roundtrip_witness :
    (encryptWithSymmetricKey (.text "hi") (CKey.sym 1)
        ⟨fun _ => [3], fun _ => 0, 0⟩).1 =
      some (.b64 (.aesCt 1 [3, 0, 0, 0, 0, 0, 0, 0, 0, 0, 0, 0]
              (.utf8 (.text "hi"))),
            .b64 (.bytes [3, 0, 0, 0, 0, 0, 0, 0, 0, 0, 0, 0])) ∧
    decryptWithSymmetricKey
        (.b64 (.aesCt 1 [3, 0, 0, 0, 0, 0, 0, 0, 0, 0, 0, 0]
           (.utf8 (.text "hi"))))
        (.b64 (.bytes [3, 0, 0, 0, 0, 0, 0, 0, 0, 0, 0, 0]))
        (CKey.sym 1) = some (.text "hi") :=
  ⟨rfl, symmetric_encrypt_decrypt_roundtrip (.text "hi") 1
    ⟨fun _ => [3], fun _ => 0, 0⟩ _ _ rfl⟩

/-- C3: every symmetric encryption call draws a fresh 96-bit nonce from the
platform entropy stream (the API takes no caller-supplied nonce, and the
returned IV is exactly the next entropy draw); two calls whose entropy draws
differ produce different nonces and different ciphertexts. -/
theorem symmetric_encrypt_fresh_nonce :
    (∀ (data : Val) (k : Nat) (e : Entropy),
      encryptWithSymmetricKey data (CKey.sym k) e =
        (some (.b64 (.aesCt k (getRandomValues12 e).1 (.utf8 data)),
               .b64 (.bytes (getRandomValues12 e).1)), e.next) ∧
      (getRandomValues12 e).1.length = 12 ∧
      ∀ b ∈ (getRandomValues12 e).1, b < 256) ∧
    (∀ (data : Val) (k : Nat) (e1 e2 : Entropy) (ct1 iv1 ct2 iv2 : Val),
      (encryptWithSymmetricKey data (CKey.sym k) e1).1 = some (ct1, iv1) →
      (encryptWithSymmetricKey data (CKey.sym k) e2).1 = some (ct2, iv2) →
      (getRandomValues12 e1).1 ≠ (getRandomValues12 e2).1 →
      iv1 ≠ iv2 ∧ ct1 ≠ ct2) := by
  constructor
  · exact fun data k e =>
      ⟨encryptWithSymmetricKey_eq data k e, getRandomValues12_length e,
       getRandomValues12_lt e⟩
  · intro data k e1 e2 ct1 iv1 ct2 iv2 h1 h2 hne
    rw [encryptWithSymmetricKey_eq] at h1 h2
    simp only [Option.some.injEq, Prod.mk.injEq] at h1 h2
    obtain ⟨rfl, rfl⟩ := h1
    obtain ⟨rfl, rfl⟩ := h2
    simp [hne]

/-- C3 witness: two calls with different entropy draws yield different nonces
and different ciphertexts. -/
theorem symmetric_encrypt_fresh_nonce_witness :
    Val.b64 (.bytes [3, 0, 0, 0, 0, 0, 0, 0, 0, 0, 0, 0]) ≠
      Val.b64 (.bytes [4, 0, 0, 0, 0, 0, 0, 0, 0, 0, 0, 0]) ∧
    Val.b64 (.aesCt 1 [3, 0, 0, 0, 0, 0, 0, 0, 0, 0, 0, 0]
        (.utf8 (.text "m"))) ≠
      Val.b64 (.aesCt 1 [4, 0, 0, 0, 0, 0, 0, 0, 0, 0, 0, 0]
        (.utf8 (.text "m"))) :=
  symmetric_encrypt_fresh_nonce.2 (.text "m") 1
    ⟨fun _ => [3], fun _ => 0, 0⟩ ⟨fun _ => [4], fun _ => 0, 0⟩
    _ _ _ _ rfl rfl (by simp [getRandomValues12])

/-- C4: for every keypair produced by `generateKeyPair` and every exported
symmetric-key string within the RSA-OAEP payload limit, unwrapping with the
private key the blob obtained by wrapping under the public key returns the
original string. -/
theorem keywrap_roundtrip (e : Entropy) (s : Val)
    (h : s.byteLen ≤ rsaOaepMaxPayload) :
    ∃ ct, encryptWithPublicKey s ((generateKeyPair e).1).1 = some ct ∧
      decryptWithPrivateKey ct ((generateKeyPair e).1).2 = some s := by
  refine ⟨.b64 (.rsaCt (e.keySeed e.idx) (.utf8 s)), ?_, ?_⟩
  · simp [encryptWithPublicKey, generateKeyPair, rsaOaepEncrypt, textEncode,
      arrayBufferToBase64, Val.byteLen, h]
  · simp [decryptWithPrivateKey, generateKeyPair, rsaOaepDecrypt, textDecode,
      base64ToArrayBuffer]

/-- C4 witness: a concrete wrap/unwrap round trip of an exported AES key. -/
theorem keywrap_roundtrip_witness :
    ∃ ct, encryptWithPublicKey (.ofJwk (.sym 9))
        ((generateKeyPair ⟨fun _ => [], fun _ => 5, 0⟩).1).1 = some ct ∧
      decryptWithPrivateKey ct
        ((generateKeyPair ⟨fun _ => [], fun _ => 5, 0⟩).1).2 =
        some (.ofJwk (.sym 9)) :=
  keywrap_roundtrip ⟨fun _ => [], fun _ => 5, 0⟩ (.ofJwk (.sym 9)) (by decide)

/-! ## Helper lemmas about the Channel Key Manager -/

/-- A cache entry just written is found again. -/
theorem cacheGet_cachePut_same (c : List (String × CKey)) (ch : String)
    (k : CKey) : cacheGet (cachePut c ch k) ch = some k := by
  simp [cacheGet, cachePut, List.find?]

/-- A store entry just written is found again. -/
theorem storeGet_storePut_self (st : Store) (key : String) (v : Val)
    (path : String) : storeGet (storePut st key v path) key path = some v := by
  simp [storeGet, storePut, List.find?]

/-- `getChannelKey` on a cache hit returns the cached key and leaves the
state unchanged. -/
theorem getChannelKey_cacheHit (ch : String) (auth : Option UserCtx)
    (s : EncState) (k : CKey) (h : cacheGet s.cache ch = some k) :
    getChannelKey ch auth s = (some k, s) := by
  simp [getChannelKey, getChannelKeyE, h]

/-- Computation law for `generateChannelKey` under a resolvable identity:
the persisted record, cache entry and advanced entropy, made explicit. -/
theorem generateChannelKey_eq (ch : String) (u : UserCtx) (s : EncState)
    (n : Nat) (pj : Jwk)
    (hpub : u.publicKey = some (.ofJwk (.rsaPub n)))
    (hpriv : u.privateKeyJwk = some pj) :
    generateChannelKey ch (some u) s =
      (true,
        { store := storePut s.store ("key-" ++ u.id ++ ".json")
            (stringifyKeyRecord
              { id := "key-" ++ ch ++ "-" ++ u.id
                ownerUserId := u.id
                encryptedKey := .b64 (.rsaCt n
                  (.utf8 (.ofJwk (.sym (s.ent.keySeed s.ent.idx % 2 ^ 256)))))
                keyType := "channel"
                associatedId := ch
                createdAt := 0 })
            (StoragePathsENCRYPTION ++ "/" ++ ch)
          cache := cachePut s.cache ch (.sym (s.ent.keySeed s.ent.idx % 2 ^ 256))
          ent := s.ent.next }) := by
  simp [generateChannelKey, generateSymmetricKey, getPrivateKey, hpriv, hpub,
    parseJwk, importKey, encryptWithPublicKey, rsaOaepEncrypt, textEncode,
    arrayBufferToBase64, exportKey, Val.byteLen, rsaOaepMaxPayload]

/-- `shareChannelKey` on a cache hit wraps the cached key under the
recipient's public key without touching the state. -/
theorem shareChannelKey_cacheHit (ch : String) (nb : Nat) (u : UserCtx)
    (s : EncState) (kk : Nat) (h : cacheGet s.cache ch = some (.sym kk)) :
    shareChannelKey ch (.rsaPub nb) (some u) s =
      .ok (.b64 (.rsaCt nb (.utf8 (.ofJwk (.sym kk)))), s) := by
  simp [shareChannelKey, getChannelKey_cacheHit ch (some u) s _ h, exportKey,
    importKey, encryptWithPublicKey, rsaOaepEncrypt, textEncode,
    arrayBufferToBase64, Val.byteLen, rsaOaepMaxPayload]

/-- Computation law for `importSharedChannelKey` on a blob wrapped under the
importer's own public key: the blob is persisted verbatim inside a key record
for self and the unwrapped key is cached. -/
theorem importSharedChannelKey_eq (ch : String) (u : UserCtx) (s : EncState)
    (nb kk : Nat) (hpriv : u.privateKeyJwk = some (.rsaPriv nb)) :
    importSharedChannelKey (.b64 (.rsaCt nb (.utf8 (.ofJwk (.sym kk))))) ch
        (some u) s =
      (true,
        { s with
          store := storePut s.store ("key-" ++ u.id ++ ".json")
            (stringifyKeyRecord
              { id := "key-" ++ ch ++ "-" ++ u.id
                ownerUserId := u.id
                encryptedKey := .b64 (.rsaCt nb (.utf8 (.ofJwk (.sym kk))))
                keyType := "channel"
                associatedId := ch
                createdAt := 0 })
            (StoragePathsENCRYPTION ++ "/" ++ ch)
          cache := cachePut s.cache ch (.sym kk) }) := by
  simp [importSharedChannelKey, getPrivateKey, hpriv, importKey,
    decryptWithPrivateKey, base64ToArrayBuffer, rsaOaepDecrypt, textDecode,
    parseJwk, importSymmetricKey]

/-- `encryptMessage` on a cache hit: the ciphertext/IV pair under the cached
key and the next entropy draw. -/
theorem encryptMessage_cacheHit (m : Val) (ch : String) (auth : Option UserCtx)
    (s : EncState) (k : Nat) (h : cacheGet s.cache ch = some (.sym k)) :
    encryptMessage m ch auth s =
      .ok ((.b64 (.aesCt k (getRandomValues12 s.ent).1 (.utf8 m)),
            .b64 (.bytes (getRandomValues12 s.ent).1)),
           { s with ent := s.ent.next }) := by
  simp [encryptMessage, getChannelKey_cacheHit ch auth s _ h,
    encryptWithSymmetricKey_eq]

/-- `decryptMessage` on a cache hit reduces to the symmetric decryption. -/
theorem decryptMessage_cacheHit (ct iv : Val) (ch : String)
    (auth : Option UserCtx) (s : EncState) (k : CKey)
    (h : cacheGet s.cache ch = some k) :
    decryptMessage ct iv ch auth s =
      match decryptWithSymmetricKey ct iv k with
      | some plain => .ok (plain, s)
      | none => .error "OperationError" := by
  simp [decryptMessage, getChannelKey_cacheHit ch auth s _ h]

/-- Symmetric decryption of a matching ciphertext/IV pair recovers the
plaintext. -/
theorem decryptWithSymmetricKey_match (k : Nat) (d : List Nat) (m : Val) :
    decryptWithSymmetricKey (.b64 (.aesCt k d (.utf8 m))) (.b64 (.bytes d))
      (CKey.sym k) = some m := by
  simp [decryptWithSymmetricKey, base64ToArrayBuffer, aesGcmDecrypt, textDecode]

/-- Symmetric decryption under a mismatched IV fails. -/
theorem decryptWithSymmetricKey_mismatch (k : Nat) (d d2 : List Nat) (m : Val)
    (hne : d ≠ d2) :
    decryptWithSymmetricKey (.b64 (.aesCt k d (.utf8 m))) (.b64 (.bytes d2))
      (CKey.sym k) = none := by
  simp [decryptWithSymmetricKey, base64ToArrayBuffer, aesGcmDecrypt, hne]

/-! ## Claims about the Channel Key Manager (C5, C6) -/

/-- C6: `generateChannelKey(channelId)`, called by an authenticated user with
a resolvable public and private key, draws a fresh 256-bit symmetric key from
platform randomness, wraps it under the caller's own public key into a key
record with `associatedId = channelId` and `ownerUserId` the caller's id,
persists that record in collection `encryption/<channelId>` under key
`key-<userId>.json`, and populates the key cache entry for the channel. -/
theorem generateChannelKey_persists_self_record (ch : String) (u : UserCtx)
    (s : EncState) (n : Nat) (pj : Jwk)
    (hpub : u.publicKey = some (.ofJwk (.rsaPub n)))
    (hpriv : u.privateKeyJwk = some pj) :
    ∃ k : Nat, k < 2 ^ 256 ∧ k = s.ent.keySeed s.ent.idx % 2 ^ 256 ∧
      (generateChannelKey ch (some u) s).1 = true ∧
      storeGet (generateChannelKey ch (some u) s).2.store
          ("key-" ++ u.id ++ ".json") (StoragePathsENCRYPTION ++ "/" ++ ch) =
        some (stringifyKeyRecord
          { id := "key-" ++ ch ++ "-" ++ u.id
            ownerUserId := u.id
            encryptedKey := .b64 (.rsaCt n (.utf8 (.ofJwk (.sym k))))
            keyType := "channel"
            associatedId := ch
            createdAt := 0 }) ∧
      cacheGet (generateChannelKey ch (some u) s).2.cache ch =
        some (.sym k) := by
  refine ⟨s.ent.keySeed s.ent.idx % 2 ^ 256,
    Nat.mod_lt _ (by positivity), rfl, ?_, ?_, ?_⟩ <;>
  rw [generateChannelKey_eq ch u s n pj hpub hpriv]
  · exact storeGet_storePut_self ..
  · exact cacheGet_cachePut_same ..

/-- C6 witness: a concrete invocation. -/
theorem generateChannelKey_persists_self_record_witness :
    ∃ k : Nat, k < 2 ^ 256 ∧
      k = (Entropy.mk (fun _ => []) (fun _ => 7) 0).keySeed 0 % 2 ^ 256 ∧
      (generateChannelKey "c1"
        (some ⟨"alice", "Alice", some (.ofJwk (.rsaPub 11)),
               some (.rsaPriv 11)⟩)
        ⟨[], [], ⟨fun _ => [], fun _ => 7, 0⟩⟩).1 = true ∧
      storeGet (generateChannelKey "c1"
          (some ⟨"alice", "Alice", some (.ofJwk (.rsaPub 11)),
                 some (.rsaPriv 11)⟩)
          ⟨[], [], ⟨fun _ => [], fun _ => 7, 0⟩⟩).2.store
          ("key-" ++ "alice" ++ ".json")
          (StoragePathsENCRYPTION ++ "/" ++ "c1") =
        some (stringifyKeyRecord
          { id := "key-" ++ "c1" ++ "-" ++ "alice"
            ownerUserId := "alice"
            encryptedKey := .b64 (.rsaCt 11 (.utf8 (.ofJwk (.sym k))))
            keyType := "channel"
            associatedId := "c1"
            createdAt := 0 }) ∧
      cacheGet (generateChannelKey "c1"
          (some ⟨"alice", "Alice", some (.ofJwk (.rsaPub 11)),
                 some (.rsaPriv 11)⟩)
          ⟨[], [], ⟨fun _ => [], fun _ => 7, 0⟩⟩).2.cache "c1" =
        some (.sym k) :=
  generateChannelKey_persists_self_record "c1"
    ⟨"alice", "Alice", some (.ofJwk (.rsaPub 11)), some (.rsaPriv 11)⟩
    ⟨[], [], ⟨fun _ => [], fun _ => 7, 0⟩⟩ 11 (.rsaPriv 11) rfl rfl

/-- C5: the share flow.  User A generates the key for channel `ch` and shares
it wrapped under B's public key; B imports the returned blob in their own
process (empty cache, shared store); afterwards `getChannelKey` succeeds for
both users with the same key, and a `"hello"` message encrypted by either
user decrypts back to `"hello"` for either user. -/
theorem share_flow (A B : UserCtx) (na nb : Nat) (ch : String) (sA : EncState)
    (entB : Entropy)
    (hApub : A.publicKey = some (.ofJwk (.rsaPub na)))
    (hApriv : A.privateKeyJwk = some (.rsaPriv na))
    (hBpriv : B.privateKeyJwk = some (.rsaPriv nb)) :
    let k := sA.ent.keySeed sA.ent.idx % 2 ^ 256
    let gen := generateChannelKey ch (some A) sA
    let blob := Val.b64 (.rsaCt nb (.utf8 (.ofJwk (.sym k))))
    let imp := importSharedChannelKey blob ch (some B)
      { store := gen.2.store, cache := [], ent := entB }
    gen.1 = true ∧
    shareChannelKey ch (.rsaPub nb) (some A) gen.2 = .ok (blob, gen.2) ∧
    imp.1 = true ∧
    (getChannelKey ch (some A) gen.2).1 = some (.sym k) ∧
    (getChannelKey ch (some B) imp.2).1 = some (.sym k) ∧
    (∀ ct iv sx, encryptMessage (.text "hello") ch (some A) gen.2 =
        .ok ((ct, iv), sx) →
      (∃ sy, decryptMessage ct iv ch (some A) gen.2 = .ok (.text "hello", sy)) ∧
      (∃ sy, decryptMessage ct iv ch (some B) imp.2 =
        .ok (.text "hello", sy))) ∧
    (∀ ct iv sx, encryptMessage (.text "hello") ch (some B) imp.2 =
        .ok ((ct, iv), sx) →
      (∃ sy, decryptMessage ct iv ch (some A) gen.2 = .ok (.text "hello", sy)) ∧
      (∃ sy, decryptMessage ct iv ch (some B) imp.2 =
        .ok (.text "hello", sy))) := by
  intro k gen blob imp
  have hgen : gen = generateChannelKey ch (some A) sA := rfl
  rw [generateChannelKey_eq ch A sA na (.rsaPriv na) hApub hApriv] at hgen
  have hAcache : cacheGet gen.2.cache ch = some (.sym k) := by
    rw [hgen]; exact cacheGet_cachePut_same ..
  have himp : imp = importSharedChannelKey blob ch (some B)
      { store := gen.2.store, cache := [], ent := entB } := rfl
  rw [importSharedChannelKey_eq ch B _ nb k hBpriv] at himp
  have hBcache : cacheGet imp.2.cache ch = some (.sym k) := by
    rw [himp]; exact cacheGet_cachePut_same ..
  refine ⟨by rw [hgen], shareChannelKey_cacheHit ch nb A gen.2 k hAcache,
    by rw [himp], ?_, ?_, ?_, ?_⟩
  · rw [getChannelKey_cacheHit ch (some A) gen.2 _ hAcache]
  · rw [getChannelKey_cacheHit ch (some B) imp.2 _ hBcache]
  · intro ct iv sx henc
    rw [encryptMessage_cacheHit _ ch (some A) gen.2 k hAcache] at henc
    simp only [Except.ok.injEq, Prod.mk.injEq] at henc
    obtain ⟨⟨rfl, rfl⟩, -⟩ := henc
    constructor
    · exact ⟨gen.2, by
        rw [decryptMessage_cacheHit _ _ ch (some A) gen.2 _ hAcache,
          decryptWithSymmetricKey_match]⟩
    · exact ⟨imp.2, by
        rw [decryptMessage_cacheHit _ _ ch (some B) imp.2 _ hBcache,
          decryptWithSymmetricKey_match]⟩
  · intro ct iv sx henc
    rw [encryptMessage_cacheHit _ ch (some B) imp.2 k hBcache] at henc
    simp only [Except.ok.injEq, Prod.mk.injEq] at henc
    obtain ⟨⟨rfl, rfl⟩, -⟩ := henc
    constructor
    · exact ⟨gen.2, by
        rw [decryptMessage_cacheHit _ _ ch (some A) gen.2 _ hAcache,
          decryptWithSymmetricKey_match]⟩
    · exact ⟨imp.2, by
        rw [decryptMessage_cacheHit _ _ ch (some B) imp.2 _ hBcache,
          decryptWithSymmetricKey_match]⟩

/-- C5 witness: the share flow at concrete users, channel and entropy. -/
theorem share_flow_witness :
    let k := (5 : Nat) % 2 ^ 256
    let gen := generateChannelKey "c"
      (some ⟨"alice", "Alice", some (.ofJwk (.rsaPub 1)), some (.rsaPriv 1)⟩)
      ⟨[], [], ⟨fun _ => [2], fun _ => 5, 0⟩⟩
    let blob := Val.b64 (.rsaCt 3 (.utf8 (.ofJwk (.sym k))))
    let imp := importSharedChannelKey blob "c"
      (some ⟨"bob", "Bob", some (.ofJwk (.rsaPub 3)), some (.rsaPriv 3)⟩)
      { store := gen.2.store, cache := [], ent := ⟨fun _ => [9], fun _ => 8, 0⟩ }
    gen.1 = true ∧
    shareChannelKey "c" (.rsaPub 3)
      (some ⟨"alice", "Alice", some (.ofJwk (.rsaPub 1)), some (.rsaPriv 1)⟩)
      gen.2 = .ok (blob, gen.2) ∧
    imp.1 = true ∧
    (getChannelKey "c"
      (some ⟨"alice", "Alice", some (.ofJwk (.rsaPub 1)), some (.rsaPriv 1)⟩)
      gen.2).1 = some (.sym k) ∧
    (getChannelKey "c"
      (some ⟨"bob", "Bob", some (.ofJwk (.rsaPub 3)), some (.rsaPriv 3)⟩)
      imp.2).1 = some (.sym k) ∧
    (∀ ct iv sx, encryptMessage (.text "hello") "c"
        (some ⟨"alice", "Alice", some (.ofJwk (.rsaPub 1)),
               some (.rsaPriv 1)⟩) gen.2 = .ok ((ct, iv), sx) →
      (∃ sy, decryptMessage ct iv "c"
        (some ⟨"alice", "Alice", some (.ofJwk (.rsaPub 1)),
               some (.rsaPriv 1)⟩) gen.2 = .ok (.text "hello", sy)) ∧
      (∃ sy, decryptMessage ct iv "c"
        (some ⟨"bob", "Bob", some (.ofJwk (.rsaPub 3)),
               some (.rsaPriv 3)⟩) imp.2 = .ok (.text "hello", sy))) ∧
    (∀ ct iv sx, encryptMessage (.text "hello") "c"
        (some ⟨"bob", "Bob", some (.ofJwk (.rsaPub 3)),
               some (.rsaPriv 3)⟩) imp.2 = .ok ((ct, iv), sx) →
      (∃ sy, decryptMessage ct iv "c"
        (some ⟨"alice", "Alice", some (.ofJwk (.rsaPub 1)),
               some (.rsaPriv 1)⟩) gen.2 = .ok (.text "hello", sy)) ∧
      (∃ sy, decryptMessage ct iv "c"
        (some ⟨"bob", "Bob", some (.ofJwk (.rsaPub 3)),
               some (.rsaPriv 3)⟩) imp.2 = .ok (.text "hello", sy))) :=
  share_flow
    ⟨"alice", "Alice", some (.ofJwk (.rsaPub 1)), some (.rsaPriv 1)⟩
    ⟨"bob", "Bob", some (.ofJwk (.rsaPub 3)), some (.rsaPriv 3)⟩
    1 3 "c" ⟨[], [], ⟨fun _ => [2], fun _ => 5, 0⟩⟩
    ⟨fun _ => [9], fun _ => 8, 0⟩ rfl rfl rfl

/-! ## Error behavior of the Channel Key Manager (C7, C8) -/

/-- `getChannelKey` on an empty cache with no stored key record for the
current identity returns `null`: the underlying storage miss is caught
inside `getChannelKey` itself. -/
theorem getChannelKey_noRecord (ch : String) (u : UserCtx) (s : EncState)
    (hc : cacheGet s.cache ch = none)
    (hs : storeGet s.store ("key-" ++ u.id ++ ".json")
      (StoragePathsENCRYPTION ++ "/" ++ ch) = none) :
    getChannelKey ch (some u) s = (none, s) := by
  unfold getChannelKey getChannelKeyE
  rw [hc]
  cases hpj : u.privateKeyJwk with
  | none => simp [getPrivateKey, hpj]
  | some pj =>
    cases hik : importKey pj true with
    | none => simp [getPrivateKey, hpj, hik]
    | some pk => simp [getPrivateKey, hpj, hik, authUserId, hs]

/-- `hasChannelKey` is the non-raising projection of `getChannelKey`: it
returns exactly whether `getChannelKey` returns a key. -/
theorem hasChannelKey_eq_isSome (ch : String) (auth : Option UserCtx)
    (s : EncState) :
    (hasChannelKey ch auth s).1 = ((getChannelKey ch auth s).1).isSome := by
  unfold hasChannelKey
  cases hcg : cacheGet s.cache ch with
  | some k => simp [getChannelKey_cacheHit ch auth s k hcg]
  | none =>
    rcases hg : getChannelKey ch auth s with ⟨ko, s1⟩
    simp [hg]

/-- C7 counterexample: the code has no typed `KeyNotFound` /
`IdentityUnavailable` / `DecryptionFailed` errors for key resolution.
`getChannelKey` swallows every failure into a `null` result, and
`encryptMessage` / `decryptMessage` report one and the same generic
`'Channel key not available'` error both when no key record exists for the
caller and when the caller's identity (private key) is unavailable — the
distinct failure causes are collapsed, contradicting the claim that the
typed errors are propagated unchanged. -/
theorem typed_errors_counterexample :
    encryptMessage (.text "m") "c"
        (some ⟨"alice", "Alice", some (.ofJwk (.rsaPub 1)), some (.rsaPriv 1)⟩)
        ⟨[], [], ⟨fun _ => [], fun _ => 0, 0⟩⟩ =
      .error "Channel key not available" ∧
    encryptMessage (.text "m") "c"
        (some ⟨"alice", "Alice", none, none⟩)
        ⟨[], [], ⟨fun _ => [], fun _ => 0, 0⟩⟩ =
      .error "Channel key not available" ∧
    decryptMessage (.text "x") (.text "y") "c"
        (some ⟨"alice", "Alice", some (.ofJwk (.rsaPub 1)), some (.rsaPriv 1)⟩)
        ⟨[], [], ⟨fun _ => [], fun _ => 0, 0⟩⟩ =
      .error "Channel key not available" ∧
    (getChannelKey "c"
        (some ⟨"alice", "Alice", some (.ofJwk (.rsaPub 1)), some (.rsaPriv 1)⟩)
        ⟨[], [], ⟨fun _ => [], fun _ => 0, 0⟩⟩).1 = none :=
  ⟨rfl, rfl, rfl, rfl⟩

/-- C7 amended: every key-resolution failure of `getChannelKey` (missing
record, unavailable identity, failed unwrap) surfaces as a `null` key, and
`encryptMessage` / `decryptMessage` then raise the single generic error
`'Channel key not available'`; only a symmetric-cipher failure on resolved
keys propagates as the platform `OperationError`. -/
theorem key_resolution_errors_collapsed (m ct iv : Val) (ch : String)
    (auth : Option UserCtx) (s : EncState) :
    ((getChannelKey ch auth s).1 = none →
      encryptMessage m ch auth s = .error "Channel key not available" ∧
      decryptMessage ct iv ch auth s = .error "Channel key not available") ∧
    (∀ k s1, getChannelKey ch auth s = (some k, s1) →
      decryptWithSymmetricKey ct iv k = none →
      decryptMessage ct iv ch auth s = .error "OperationError") := by
  constructor
  · intro h
    rcases hg : getChannelKey ch auth s with ⟨ko, s1⟩
    rw [hg] at h
    simp only at h
    subst h
    exact ⟨by simp [encryptMessage, hg], by simp [decryptMessage, hg]⟩
  · intro k s1 hg hd
    simp [decryptMessage, hg, hd]

/-- C7 witness: the amended behavior at a concrete identity-unavailable
state. -/
theorem key_resolution_errors_collapsed_witness :
    encryptMessage (.text "w") "c" (some ⟨"alice", "Alice", none, none⟩)
        ⟨[], [], ⟨fun _ => [], fun _ => 0, 0⟩⟩ =
      .error "Channel key not available" ∧
    decryptMessage (.text "x") (.text "y") "c"
        (some ⟨"alice", "Alice", none, none⟩)
        ⟨[], [], ⟨fun _ => [], fun _ => 0, 0⟩⟩ =
      .error "Channel key not available" :=
  (key_resolution_errors_collapsed (.text "w") (.text "x") (.text "y") "c"
    (some ⟨"alice", "Alice", none, none⟩)
    ⟨[], [], ⟨fun _ => [], fun _ => 0, 0⟩⟩).1 rfl

/-- C8 counterexample: for a user with no key record, `getChannelKey` does
not fail with a typed `KeyNotFound` error — its internal failure is the
storage miss (modelled by its message string), which it swallows, returning
`null`; `hasChannelKey` duly returns `false`. -/
theorem hasChannelKey_keynotfound_counterexample :
    getChannelKeyE "c"
        (some ⟨"alice", "Alice", some (.ofJwk (.rsaPub 1)), some (.rsaPriv 1)⟩)
        ⟨[], [], ⟨fun _ => [], fun _ => 0, 0⟩⟩ =
      .error "File not found: key-alice.json" ∧
    (getChannelKey "c"
        (some ⟨"alice", "Alice", some (.ofJwk (.rsaPub 1)), some (.rsaPriv 1)⟩)
        ⟨[], [], ⟨fun _ => [], fun _ => 0, 0⟩⟩).1 = none ∧
    (hasChannelKey "c"
        (some ⟨"alice", "Alice", some (.ofJwk (.rsaPub 1)), some (.rsaPriv 1)⟩)
        ⟨[], [], ⟨fun _ => [], fun _ => 0, 0⟩⟩).1 = false ∧
    "File not found: key-alice.json" ≠ "KeyNotFound" :=
  ⟨rfl, rfl, rfl, by decide⟩

/-- C8 amended: `hasChannelKey` never raises — it is a total boolean
projection that returns `true` exactly when `getChannelKey` returns a key;
in particular, for a user with an empty cache and no key record for the
channel, `getChannelKey` returns no key (the code signals this by a `null`
result rather than a typed `KeyNotFound` error) and `hasChannelKey` returns
`false`. -/
theorem hasChannelKey_iff_getChannelKey (ch : String) (u : UserCtx)
    (s : EncState) (hc : cacheGet s.cache ch = none)
    (hs : storeGet s.store ("key-" ++ u.id ++ ".json")
      (StoragePathsENCRYPTION ++ "/" ++ ch) = none) :
    (∀ ch2 auth2 s2, (hasChannelKey ch2 auth2 s2).1 =
      ((getChannelKey ch2 auth2 s2).1).isSome) ∧
    (getChannelKey ch (some u) s).1 = none ∧
    (hasChannelKey ch (some u) s).1 = false := by
  have hnone := getChannelKey_noRecord ch u s hc hs
  refine ⟨hasChannelKey_eq_isSome, by rw [hnone], ?_⟩
  rw [hasChannelKey_eq_isSome, hnone]
  rfl

/-- C8 witness: the amended behavior at a concrete no-record state. -/
theorem hasChannelKey_iff_getChannelKey_witness :
    (getChannelKey "c"
        (some ⟨"bob", "Bob", some (.ofJwk (.rsaPub 2)), some (.rsaPriv 2)⟩)
        ⟨[], [], ⟨fun _ => [], fun _ => 0, 0⟩⟩).1 = none ∧
    (hasChannelKey "c"
        (some ⟨"bob", "Bob", some (.ofJwk (.rsaPub 2)), some (.rsaPriv 2)⟩)
        ⟨[], [], ⟨fun _ => [], fun _ => 0, 0⟩⟩).1 = false :=
  (hasChannelKey_iff_getChannelKey "c"
    ⟨"bob", "Bob", some (.ofJwk (.rsaPub 2)), some (.rsaPriv 2)⟩
    ⟨[], [], ⟨fun _ => [], fun _ => 0, 0⟩⟩ rfl rfl).2

/-! ## The message-load pipeline (C9) -/

/-- With the channel key cached, one fetch-decryption step never changes the
state. -/
theorem decryptFetchedMessage_state (ch : String) (auth : Option UserCtx)
    (s : EncState) (k : CKey) (m : MessageRec)
    (hc : cacheGet s.cache ch = some k) :
    (decryptFetchedMessage ch auth s m).2 = s := by
  obtain ⟨mid, mc, miv, msid, mrs⟩ := m
  cases miv with
  | none => rfl
  | some iv =>
    simp only [decryptFetchedMessage]
    rw [decryptMessage_cacheHit mc iv ch auth s k hc]
    cases decryptWithSymmetricKey mc iv k <;> rfl

/-- C9: with the channel key resolved, the batch decryption of
`fetchMessages` (a) returns a message without an `iv` field completely
unchanged rather than failing, (b) replaces the content of a message whose
decryption fails by the fixed placeholder `"[ENCRYPTED - Cannot decrypt]"`,
and (c) processes every message of the batch independently, so one failing
message never prevents the rest of the batch from loading. -/
theorem fetchMessages_plaintext_passthrough (ch : String)
    (auth : Option UserCtx) (s : EncState) (k : CKey)
    (hc : cacheGet s.cache ch = some k) :
    (∀ m : MessageRec, m.iv = none → decryptFetchedMessage ch auth s m = (m, s)) ∧
    (∀ (m : MessageRec) (iv : Val), m.iv = some iv →
      decryptWithSymmetricKey m.content iv k = none →
      decryptFetchedMessage ch auth s m =
        ({ m with content := .text "[ENCRYPTED - Cannot decrypt]" }, s)) ∧
    (∀ ms : List MessageRec, decryptFetchedMessages ch auth ms s =
      (ms.map (fun m => (decryptFetchedMessage ch auth s m).1), s)) := by
  refine ⟨?_, ?_, ?_⟩
  · intro m hiv
    obtain ⟨mid, mc, miv, msid, mrs⟩ := m
    simp only at hiv
    subst hiv
    rfl
  · intro m iv hiv hfail
    obtain ⟨mid, mc, miv, msid, mrs⟩ := m
    simp only at hiv
    subst hiv
    simp only [decryptFetchedMessage]
    rw [decryptMessage_cacheHit mc iv ch auth s k hc, hfail]
  · intro ms
    induction ms with
    | nil => rfl
    | cons m ms ih =>
      rcases hm : decryptFetchedMessage ch auth s m with ⟨m1, s1⟩
      have hs1 : s1 = s := by
        have h2 := decryptFetchedMessage_state ch auth s k m hc
        rw [hm] at h2
        exact h2
      subst hs1
      simp only [decryptFetchedMessages, hm, ih, List.map_cons]

/-- C9 witness: a concrete batch with one never-encrypted message and one
message that fails to decrypt (wrong key): the first passes through
unchanged, the second becomes the placeholder, and the batch still loads. -/
theorem fetchMessages_plaintext_passthrough_witness :
    decryptFetchedMessage "c" none
        ⟨[], [("c", CKey.sym 7)], ⟨fun _ => [], fun _ => 0, 0⟩⟩
        ⟨"m1", .text "plain", none, "alice", []⟩ =
      (⟨"m1", .text "plain", none, "alice", []⟩,
       ⟨[], [("c", CKey.sym 7)], ⟨fun _ => [], fun _ => 0, 0⟩⟩) ∧
    decryptFetchedMessage "c" none
        ⟨[], [("c", CKey.sym 7)], ⟨fun _ => [], fun _ => 0, 0⟩⟩
        ⟨"m2", .b64 (.aesCt 9 [1] (.utf8 (.text "zz"))),
         some (.b64 (.bytes [1])), "alice", []⟩ =
      (⟨"m2", .text "[ENCRYPTED - Cannot decrypt]",
        some (.b64 (.bytes [1])), "alice", []⟩,
       ⟨[], [("c", CKey.sym 7)], ⟨fun _ => [], fun _ => 0, 0⟩⟩) ∧
    (decryptFetchedMessages "c" none
        [⟨"m1", .text "plain", none, "alice", []⟩,
         ⟨"m2", .b64 (.aesCt 9 [1] (.utf8 (.text "zz"))),
          some (.b64 (.bytes [1])), "alice", []⟩]
        ⟨[], [("c", CKey.sym 7)], ⟨fun _ => [], fun _ => 0, 0⟩⟩).1 =
      [⟨"m1", .text "plain", none, "alice", []⟩,
       ⟨"m2", .text "[ENCRYPTED - Cannot decrypt]",
        some (.b64 (.bytes [1])), "alice", []⟩] := by
  have h := fetchMessages_plaintext_passthrough "c" none
    ⟨[], [("c", CKey.sym 7)], ⟨fun _ => [], fun _ => 0, 0⟩⟩ (CKey.sym 7) rfl
  exact ⟨h.1 _ rfl, h.2.1 _ _ rfl rfl, by rw [h.2.2]; rfl⟩

/-! ## Reaction updates on encrypted messages (C10) -/

/-- C10: for a message persisted with an `iv` field, `addReaction` and
`removeReaction` persist a record whose `content` is a ciphertext produced
under a freshly drawn nonce while the `iv` field still holds the nonce of the
original encryption; decrypting the re-loaded record's content with its
stored `iv` therefore fails with the cipher error instead of returning the
message text. -/
theorem reaction_update_breaks_encrypted_message (u : UserCtx)
    (ch mid pt sid emoji : String) (k : Nat) (iv0 : List Nat)
    (rs : List Reaction) (s : EncState)
    (hc : cacheGet s.cache ch = some (.sym k))
    (hnr : rs.find? (fun r => r.userId == u.id && r.emoji == emoji) = none)
    (hne : (getRandomValues12 s.ent).1 ≠ iv0) :
    let m : MessageRec := ⟨mid, .text pt, some (.b64 (.bytes iv0)), sid, rs⟩
    let newCt := Val.b64 (.aesCt k (getRandomValues12 s.ent).1
      (.utf8 (.text pt)))
    let addRes := addReaction mid emoji (some u) (some ch) [m] s
    let remRes := removeReaction mid emoji (some u) (some ch) [m] s
    addRes.1 = true ∧
    storeGet addRes.2.2.store (mid ++ ".json")
        (StoragePathsMESSAGES ++ "/" ++ ch) =
      some (.ofMessageJson mid newCt (some (.b64 (.bytes iv0))) sid
        (rs ++ [⟨emoji, u.id, u.name⟩])) ∧
    decryptMessage newCt (.b64 (.bytes iv0)) ch (some u) addRes.2.2 =
      .error "OperationError" ∧
    remRes.1 = true ∧
    storeGet remRes.2.2.store (mid ++ ".json")
        (StoragePathsMESSAGES ++ "/" ++ ch) =
      some (.ofMessageJson mid newCt (some (.b64 (.bytes iv0))) sid
        (rs.filter (fun r => !(r.userId == u.id && r.emoji == emoji)))) ∧
    decryptMessage newCt (.b64 (.bytes iv0)) ch (some u) remRes.2.2 =
      .error "OperationError" := by
  intro m newCt addRes remRes
  have hadd : addRes =
      (true, [{ m with reactions := rs ++ [⟨emoji, u.id, u.name⟩] }],
        { store := storePut s.store (mid ++ ".json")
            (.ofMessageJson mid newCt (some (.b64 (.bytes iv0))) sid
              (rs ++ [⟨emoji, u.id, u.name⟩]))
            (StoragePathsMESSAGES ++ "/" ++ ch)
          cache := s.cache
          ent := s.ent.next }) := by
    show addReaction mid emoji (some u) (some ch) [m] s = _
    simp only [addReaction, List.find?, beq_self_eq_true, hnr,
      encryptMessage_cacheHit (Val.text pt) ch (some u) s k hc,
      replaceMessage, stringifyMessage, List.map, if_true]
  have hrem : remRes =
      (true,
        [{ m with reactions := rs.filter (fun r => !(r.userId == u.id && r.emoji == emoji)) }],
        { store := storePut s.store (mid ++ ".json")
            (.ofMessageJson mid newCt (some (.b64 (.bytes iv0))) sid
              (rs.filter (fun r => !(r.userId == u.id && r.emoji == emoji))))
            (StoragePathsMESSAGES ++ "/" ++ ch)
          cache := s.cache
          ent := s.ent.next }) := by
    show removeReaction mid emoji (some u) (some ch) [m] s = _
    simp only [removeReaction, List.find?, beq_self_eq_true,
      encryptMessage_cacheHit (Val.text pt) ch (some u) s k hc,
      replaceMessage, stringifyMessage, List.map, if_true]
  have hdec : ∀ (st : Store) (en : Entropy),
      decryptMessage newCt (.b64 (.bytes iv0)) ch (some u) ⟨st, s.cache, en⟩ =
        .error "OperationError" := by
    intro st en
    rw [decryptMessage_cacheHit newCt (.b64 (.bytes iv0)) ch (some u)
        ⟨st, s.cache, en⟩ (CKey.sym k) hc,
      decryptWithSymmetricKey_mismatch k _ iv0 _ hne]
  refine ⟨by rw [hadd], ?_, ?_, by rw [hrem], ?_, ?_⟩
  · rw [hadd]
    exact storeGet_storePut_self ..
  · rw [hadd]
    exact hdec _ _
  · rw [hrem]
    exact storeGet_storePut_self ..
  · rw [hrem]
    exact hdec _ _

/-- C10 witness: a concrete encrypted message whose reaction update persists
a record that its own stored `iv` can no longer decrypt. -/
theorem reaction_update_breaks_encrypted_message_witness :
    let m : MessageRec := ⟨"m1", .text "hey", some (.b64 (.bytes [9])),
      "alice", []⟩
    let newCt := Val.b64 (.aesCt 7
      (getRandomValues12 ⟨fun _ => [1], fun _ => 0, 0⟩).1
      (.utf8 (.text "hey")))
    let addRes := addReaction "m1" "+1" (some ⟨"bob", "Bob", none, none⟩)
      (some "c") [m] ⟨[], [("c", CKey.sym 7)], ⟨fun _ => [1], fun _ => 0, 0⟩⟩
    let remRes := removeReaction "m1" "+1" (some ⟨"bob", "Bob", none, none⟩)
      (some "c") [m] ⟨[], [("c", CKey.sym 7)], ⟨fun _ => [1], fun _ => 0, 0⟩⟩
    addRes.1 = true ∧
    storeGet addRes.2.2.store ("m1" ++ ".json")
        (StoragePathsMESSAGES ++ "/" ++ "c") =
      some (.ofMessageJson "m1" newCt (some (.b64 (.bytes [9]))) "alice"
        ([] ++ [⟨"+1", "bob", "Bob"⟩])) ∧
    decryptMessage newCt (.b64 (.bytes [9])) "c"
        (some ⟨"bob", "Bob", none, none⟩) addRes.2.2 =
      .error "OperationError" ∧
    remRes.1 = true ∧
    storeGet remRes.2.2.store ("m1" ++ ".json")
        (StoragePathsMESSAGES ++ "/" ++ "c") =
      some (.ofMessageJson "m1" newCt (some (.b64 (.bytes [9]))) "alice"
        (List.filter (fun r => !(r.userId == "bob" && r.emoji == "+1")) [])) ∧
    decryptMessage newCt (.b64 (.bytes [9])) "c"
        (some ⟨"bob", "Bob", none, none⟩) remRes.2.2 =
      .error "OperationError" :=
  reaction_update_breaks_encrypted_message ⟨"bob", "Bob", none, none⟩
    "c" "m1" "hey" "alice" "+1" 7 [9] []
    ⟨[], [("c", CKey.sym 7)], ⟨fun _ => [1], fun _ => 0, 0⟩⟩
    rfl rfl (by decide)

/-! ## The plaintext-key-never-persisted invariant (C1) -/

/-- `getChannelKeyE` never writes to the blob store. -/
theorem getChannelKeyE_ok_store (ch : String) (auth : Option UserCtx)
    (s : EncState) (k : CKey) (s1 : EncState)
    (h : getChannelKeyE ch auth s = .ok (k, s1)) : s1.store = s.store := by
  unfold getChannelKeyE at h
  repeat' split at h
  all_goals simp_all
  all_goals obtain ⟨-, rfl⟩ := h
  all_goals rfl

/-- `getChannelKey` never writes to the blob store. -/
theorem getChannelKey_store (ch : String) (auth : Option UserCtx)
    (s : EncState) : (getChannelKey ch auth s).2.store = s.store := by
  unfold getChannelKey
  cases hg : getChannelKeyE ch auth s with
  | ok r => exact getChannelKeyE_ok_store ch auth s r.1 r.2 hg
  | error e => rfl

/-- `shareChannelKey` never writes to the blob store. -/
theorem shareChannelKey_ok_store (ch : String) (r : Jwk)
    (auth : Option UserCtx) (s : EncState) (v : Val) (s1 : EncState)
    (h : shareChannelKey ch r auth s = .ok (v, s1)) : s1.store = s.store := by
  have hg := getChannelKey_store ch auth s
  unfold shareChannelKey at h
  repeat' (first | split at h | dsimp only at h)
  all_goals simp_all

/-- A successful `encryptWithPublicKey` output is the base64 rendering of an
RSA-OAEP ciphertext of the UTF-8 encoded payload. -/
theorem encryptWithPublicKey_ok_shape (d : Val) (pk : CKey) (v : Val)
    (h : encryptWithPublicKey d pk = some v) :
    ∃ n, v = .b64 (.rsaCt n (.utf8 d)) := by
  unfold encryptWithPublicKey at h
  cases pk with
  | rsaPub n =>
    refine ⟨n, ?_⟩
    unfold rsaOaepEncrypt at h
    split at h <;> simp_all [arrayBufferToBase64, textEncode]
  | sym k => simp at h
  | rsaPriv n => simp at h

/-- A blob that `decryptWithPrivateKey` accepts is the base64 rendering of an
RSA-OAEP ciphertext (wrapped under the key's matching public half). -/
theorem decryptWithPrivateKey_ok_shape (blob : Val) (pk : CKey) (v : Val)
    (h : decryptWithPrivateKey blob pk = some v) :
    ∃ n p, pk = .rsaPriv n ∧ blob = .b64 (.rsaCt n p) := by
  unfold decryptWithPrivateKey at h
  cases pk with
  | sym k => simp at h
  | rsaPub n => simp at h
  | rsaPriv n =>
    refine ⟨n, ?_⟩
    cases blob <;> simp_all [base64ToArrayBuffer]
    rename_i b
    cases b <;> simp_all [rsaOaepDecrypt]
    rename_i m p
    split at h <;> simp_all

/-- Persisting a wrapped key record preserves the store invariant. -/
theorem storeWrappedB_storePut (st : Store) (key : String) (v : Val)
    (path : String) (hv : wrappedKeyRecordB v = true)
    (hst : storeWrappedB st = true) :
    storeWrappedB (storePut st key v path) = true := by
  simp only [storeWrappedB, storePut, List.all_cons, hv, Bool.or_true,
    Bool.true_and]
  exact hst

/-- A wrapped key record never exposes any symmetric key in cleartext. -/
theorem wrapped_not_exposes (v : Val) (hv : wrappedKeyRecordB v = true)
    (k : Nat) : exposesSymKey k v = false := by
  unfold wrappedKeyRecordB at hv
  split at hv
  · simp [exposesSymKey]
  · simp at hv

/-- `generateChannelKey` preserves the store invariant: the only record it
persists carries the fresh key RSA-wrapped under the caller's public key. -/
theorem generateChannelKey_storeOk (ch : String) (auth : Option UserCtx)
    (s : EncState) (hst : storeWrappedB s.store = true) :
    storeWrappedB (generateChannelKey ch auth s).2.store = true := by
  unfold generateChannelKey
  repeat' (first | split | dsimp only)
  · exact hst
  · exact hst
  · exact hst
  · exact hst
  · exact hst
  · exact hst
  · rename_i henc
    obtain ⟨n, hv⟩ := encryptWithPublicKey_ok_shape _ _ _ henc
    subst hv
    exact storeWrappedB_storePut _ _ _ _ rfl hst

/-- `importSharedChannelKey` preserves the store invariant: it only persists
blobs it could itself unwrap, which are RSA-OAEP ciphertexts. -/
theorem importSharedChannelKey_storeOk (blob : Val) (ch : String)
    (auth : Option UserCtx) (s : EncState)
    (hst : storeWrappedB s.store = true) :
    storeWrappedB (importSharedChannelKey blob ch auth s).2.store = true := by
  unfold importSharedChannelKey
  repeat' (first | split | dsimp only)
  · exact hst
  · exact hst
  · exact hst
  · exact hst
  all_goals (
    obtain ⟨n, p, -, hb⟩ := decryptWithPrivateKey_ok_shape _ _ _ (by assumption)
    subst hb
    exact storeWrappedB_storePut _ _ _ _ rfl hst)

/-- One Channel Key Manager operation preserves the store invariant. -/
theorem runKMOp_storeOk (s : EncState) (op : KMOp)
    (hst : storeWrappedB s.store = true) :
    storeWrappedB (runKMOp s op).store = true := by
  cases op with
  | genKey auth ch => exact generateChannelKey_storeOk ch auth s hst
  | getKey auth ch => rw [runKMOp, getChannelKey_store]; exact hst
  | shareKey auth ch r =>
    unfold runKMOp
    dsimp only
    cases h : shareChannelKey ch r auth s with
    | ok vs =>
      obtain ⟨v, s1⟩ := vs
      rw [shareChannelKey_ok_store ch r auth s v s1 h]
      exact hst
    | error e => exact hst
  | importKeyOp auth blob ch => exact importSharedChannelKey_storeOk blob ch auth s hst

/-- Any sequence of Channel Key Manager operations preserves the store
invariant. -/
theorem runKMOps_storeOk (ops : List KMOp) :
    ∀ s : EncState, storeWrappedB s.store = true →
      storeWrappedB (runKMOps ops s).store = true := by
  induction ops with
  | nil => exact fun s hst => hst
  | cons op ops ih =>
    intro s hst
    exact ih (runKMOp s op) (runKMOp_storeOk s op hst)

/-- A store satisfying the invariant exposes no symmetric key in cleartext
in any entry of an `encryption/...` collection. -/
theorem storeWrapped_no_expose (st : Store) (hst : storeWrappedB st = true)
    (k : Nat) :
    (st.all fun e => !(e.path.startsWith (StoragePathsENCRYPTION ++ "/")) ||
      !exposesSymKey k e.data) = true := by
  rw [storeWrappedB, List.all_eq_true] at hst
  rw [List.all_eq_true]
  intro e he
  have h1 := hst e he
  cases hsw : e.path.startsWith (StoragePathsENCRYPTION ++ "/") with
  | false => simp [hsw]
  | true =>
    rw [hsw] at h1
    simp only [Bool.not_true, Bool.false_or] at h1
    simp [hsw, wrapped_not_exposes e.data h1 k]

/-- C1: starting from any store whose `encryption/...` entries are wrapped
key records (in particular the empty store), every sequence of Channel Key
Manager operations preserves this: each persisted key record carries the
channel key only in its `encryptedKey` field, RSA-wrapped under a recipient
public key, and no entry of an `encryption/...` collection contains any
symmetric key in cleartext; the unwrapped keys live only in the process-local
cache component of the state. -/
theorem channel_key_never_stored_plaintext (ops : List KMOp) (s : EncState)
    (hst : storeWrappedB s.store = true) :
    storeWrappedB (runKMOps ops s).store = true ∧
    ∀ k : Nat, ((runKMOps ops s).store.all fun e =>
      !(e.path.startsWith (StoragePathsENCRYPTION ++ "/")) ||
        !exposesSymKey k e.data) = true := by
  have h1 := runKMOps_storeOk ops s hst
  exact ⟨h1, fun k => storeWrapped_no_expose _ h1 k⟩

/-- C1 witness: a concrete run of all four operations (generate, get, share,
import) from the empty store keeps every persisted record wrapped, and in
particular never stores the key `5` (the key generated and imported in the
run) in cleartext. -/
theorem channel_key_never_stored_plaintext_witness :
    storeWrappedB (runKMOps
      [.genKey (some ⟨"alice", "Alice", some (.ofJwk (.rsaPub 1)),
          some (.rsaPriv 1)⟩) "c",
       .getKey (some ⟨"alice", "Alice", some (.ofJwk (.rsaPub 1)),
          some (.rsaPriv 1)⟩) "c",
       .shareKey (some ⟨"alice", "Alice", some (.ofJwk (.rsaPub 1)),
          some (.rsaPriv 1)⟩) "c" (.rsaPub 3),
       .importKeyOp (some ⟨"bob", "Bob", some (.ofJwk (.rsaPub 3)),
          some (.rsaPriv 3)⟩)
          (.b64 (.rsaCt 3 (.utf8 (.ofJwk (.sym 5))))) "c"]
      ⟨[], [], ⟨fun _ => [1], fun _ => 5, 0⟩⟩).store = true ∧
    ((runKMOps
      [.genKey (some ⟨"alice", "Alice", some (.ofJwk (.rsaPub 1)),
          some (.rsaPriv 1)⟩) "c",
       .getKey (some ⟨"alice", "Alice", some (.ofJwk (.rsaPub 1)),
          some (.rsaPriv 1)⟩) "c",
       .shareKey (some ⟨"alice", "Alice", some (.ofJwk (.rsaPub 1)),
          some (.rsaPriv 1)⟩) "c" (.rsaPub 3),
       .importKeyOp (some ⟨"bob", "Bob", some (.ofJwk (.rsaPub 3)),
          some (.rsaPriv 3)⟩)
          (.b64 (.rsaCt 3 (.utf8 (.ofJwk (.sym 5))))) "c"]
      ⟨[], [], ⟨fun _ => [1], fun _ => 5, 0⟩⟩).store.all fun e =>
        !(e.path.startsWith (StoragePathsENCRYPTION ++ "/")) ||
          !exposesSymKey 5 e.data) = true := by
  have h := channel_key_never_stored_plaintext
    [.genKey (some ⟨"alice", "Alice", some (.ofJwk (.rsaPub 1)),
        some (.rsaPriv 1)⟩) "c",
     .getKey (some ⟨"alice", "Alice", some (.ofJwk (.rsaPub 1)),
        some (.rsaPriv 1)⟩) "c",
     .shareKey (some ⟨"alice", "Alice", some (.ofJwk (.rsaPub 1)),
        some (.rsaPriv 1)⟩) "c" (.rsaPub 3),
     .importKeyOp (some ⟨"bob", "Bob", some (.ofJwk (.rsaPub 3)),
        some (.rsaPriv 3)⟩)
        (.b64 (.rsaCt 3 (.utf8 (.ofJwk (.sym 5))))) "c"]
    ⟨[], [], ⟨fun _ => [1], fun _ => 5, 0⟩⟩ rfl
  exact ⟨h.1, h.2 5⟩

end SecureChat
